import Mathlib

/-!
Verification development for `src/magritte/tools.py` (Magritte analysis
utilities): a shallow embedding of the radiative-quantity helpers and of the
scattered-to-regular-grid image exporter `save_fits`, with theorems checking
the stated behaviour of each part.

Modelling conventions.  Scalar values flowing through the exporter are exact
rationals; the IEEE-754 special values that a floating-point division by zero
produces are modelled by the inductive `FVal` (finite / NaN / signed
infinity), which is what the regularity check of `save_fits` needs.  The
side effects of `save_fits` (lines printed to standard output, file-system
calls, a raised exception) are collected in an explicit `Output` record, in
program order.  The external scipy `griddata` routine is a parameter of the
embedding (the pluggable interpolation strategy); `nearestInterp` below is a
concrete instance.  The radiative-quantity functions, which use `exp`, are
embedded over the real numbers, where `np.expm1 x` is exactly `exp x - 1`.
-/

namespace Magritte

/-- Extended value: finite, NaN, or a signed infinity.  Models the result of
a numpy floating-point division whose divisor may be zero. -/
inductive FVal where
  | fin (q : ℚ)
  | nan
  | inf
  | ninf
deriving DecidableEq

/-- Division as numpy performs it on finite operands: finite when the divisor
is nonzero; for a zero divisor, 0/0 is NaN and x/0 a signed infinity. -/
def fdiv (a b : ℚ) : FVal :=
  if b = 0 then
    if a = 0 then FVal.nan else if 0 < a then FVal.inf else FVal.ninf
  else FVal.fin (a / b)

/-- Python `relative_error(a, b) = 2.0*(a-b)/(a+b)` (tools.py lines 42-46):
there is no guard on the denominator, so the division-by-zero outcomes of
`fdiv` can occur. -/
def relative_error (a b : ℚ) : FVal := fdiv (2 * (a - b)) (a + b)

/-- numpy `np.abs` on an extended value (the absolute value of NaN is NaN). -/
def fabs : FVal → FVal
  | FVal.fin q => FVal.fin |q|
  | FVal.nan => FVal.nan
  | FVal.inf => FVal.inf
  | FVal.ninf => FVal.inf

/-- The comparison `v > t` as IEEE evaluates it: false whenever v is NaN. -/
def fgt (v : FVal) (t : ℚ) : Bool :=
  match v with
  | FVal.fin q => decide (t < q)
  | FVal.nan => false
  | FVal.inf => true
  | FVal.ninf => false

/-- numpy `np.min` of an array (0 on the empty list, where numpy raises). -/
def listMin (l : List ℚ) : ℚ := l.foldl min (l.headD 0)

/-- numpy `np.max` of an array (0 on the empty list, where numpy raises). -/
def listMax (l : List ℚ) : ℚ := l.foldl max (l.headD 0)

/-- numpy `np.diff`: consecutive differences. -/
def npdiff (l : List ℚ) : List ℚ := (l.zip l.tail).map fun p => p.2 - p.1

/-- numpy `np.mean` of a nonempty array: sum divided by length. -/
def npmean (l : List ℚ) : ℚ := l.sum / l.length

/-- numpy `np.mean` with its empty case: the mean of an empty array is NaN
(with a warning, not an exception), finite otherwise. -/
def fmean (l : List ℚ) : FVal :=
  if l.length = 0 then FVal.nan else FVal.fin (npmean l)

/-- numpy `np.linspace a b n`: n evenly spaced points from a to b inclusive.
For n = 1 the rational division by zero yields the value a, matching the
numpy result `[a]`. -/
def linspace (a b : ℚ) (n : ℕ) : List ℚ :=
  (List.range n).map fun i : ℕ => a + (b - a) * (i : ℚ) / ((n : ℚ) - 1)

/-- Python list indexing with negative-index wraparound, as in
`model.images[image_nr]` with the default `image_nr = -1`; meaningful only
in range (see `pyInRange`), where Python raises IndexError otherwise. -/
def pyIdx (n : ℕ) (i : ℤ) : ℕ := (if i < 0 then i + n else i).toNat

/-- The indices Python accepts for a list of length n: -n ≤ i < n.  Outside
this range `model.images[image_nr]` raises IndexError. -/
def pyInRange (n : ℕ) (i : ℤ) : Prop := -(n : ℤ) ≤ i ∧ i < (n : ℤ)

instance (n : ℕ) (i : ℤ) : Decidable (pyInRange n i) :=
  inferInstanceAs (Decidable (And _ _))

/-- One stored image: scattered x/y coordinates of the sample points and the
intensity array I[point, frequency] (`model.images[k].ImX/ImY/I`). -/
structure Image where
  ImX : List ℚ
  ImY : List ℚ
  I : List (List ℚ)
deriving DecidableEq, Inhabited

/-- The slice of the model object that `save_fits` reads: the image list,
the model name (`model.parameters.model_name()`), the frequency-bin count
(`model.parameters.nfreqs()`) and the frequency table
(`model.radiation.frequencies.nu`, whose row 0 is the frequency array). -/
structure Model where
  images : List Image
  model_name : String
  nfreqs : ℕ
  nu : List (List ℚ)

/-- The file-system facts `save_fits` queries: `os.path.dirname` composed
with `os.path.abspath`, `os.path.exists` on the image directory, and
`os.path.isfile` on the target path. -/
structure Env where
  dirnameAbs : String → String
  existsDir : String → Bool
  isFile : String → Bool

/-- The FITS header assembled by `save_fits`; `dfreq = none` models the
Python `None` stored when the frequency spacing is irregular, and the mean
fields use `FVal` since `np.mean` of an empty array is NaN. -/
structure Header where
  naxis : ℕ
  naxis1 : ℕ
  naxis2 : ℕ
  naxis3 : ℕ
  centfreq : FVal
  dpix_x : FVal
  dpix_y : FVal
  dfreq : Option FVal
  im_unit : String
deriving DecidableEq

/-- A file-system effect of `save_fits`, in program order: `os.makedirs`,
`os.remove`, `fits.writeto`. -/
inductive FsAction where
  | makedirs (dir : String)
  | remove (file : String)
  | writeto (file : String) (data : List (List (List ℚ))) (hdr : Header)
deriving DecidableEq

/-- What one call of `save_fits` does: the lines printed to standard output,
the file-system actions in order, and the exception it ends in (`none` for a
normal return). -/
structure Output where
  printed : List String
  actions : List FsAction
  error : Option String
deriving DecidableEq

/-- Python truthiness of the `filename` argument (`if not filename:`): the
value `None` and the empty string both count as absent. -/
def falsy : Option String → Bool
  | none => true
  | some s => s == ""

/-- Output-path resolution (tools.py lines 154-163): when no filename is
given, derive `dirname(abspath(model_name)) ++ "/images/image.fits"`,
creating the images directory when absent.  Returns the resolved filename,
the directory-creation actions and the lines printed while resolving. -/
def resolve (env : Env) (model : Model) (filename : Option String) :
    String × List FsAction × List String :=
  if falsy filename then
    let im_dir := env.dirnameAbs model.model_name ++ "/images/"
    if env.existsDir im_dir then (im_dir ++ "image.fits", [], [])
    else (im_dir ++ "image.fits", [FsAction.makedirs im_dir],
      ["Created image directory: " ++ im_dir])
  else (filename.getD "", [], [])

/-- The pluggable scattered-data interpolation strategy, standing for scipy
`griddata` with the selected method: scattered x coordinates, scattered y
coordinates, sample values, query x, query y. -/
abbrev Interp := List ℚ → List ℚ → List ℚ → ℚ → ℚ → ℚ

/-- numpy column slice `imI[:, f]`, meaningful for f below every row length
(`save_fits` only evaluates it there: for larger f the slice raises
IndexError, see `ncols`). -/
def column (m : List (List ℚ)) (f : ℕ) : List ℚ := m.map fun row => row.getD f 0

/-- The number of addressable columns of the intensity array: the least row
length.  The slice `imI[:, f]` raises IndexError exactly when f is not
below it (also when the array has no rows at all). -/
def ncols (m : List (List ℚ)) : ℕ :=
  (m.map List.length).foldl min ((m.headD []).length)

/-- One resampled slice, `griddata((imx, imy), vals, (xs[None,:], ys[:,None]))`:
the broadcast pairs row index r with `ys[r]` and column index c with `xs[c]`,
so the result has the ys index first and entry [r][c] is the interpolation
at the point (xs[c], ys[r]). -/
def gridSlice (interp : Interp) (imx imy vals xs ys : List ℚ) : List (List ℚ) :=
  ys.map fun y => xs.map fun x => interp imx imy vals x y

/-- The interpolation loop building the cube `zs`: one slice per frequency
bin, slice f computed from column f of the intensity array and from nothing
else, each bin resampled independently. -/
def zsOf (interp : Interp) (imx imy : List ℚ) (imI : List (List ℚ))
    (nfreqs : ℕ) (xs ys : List ℚ) : List (List (List ℚ)) :=
  (List.range nfreqs).map fun f => gridSlice interp imx imy (column imI f) xs ys

/-- Image boundary `np.min(coords)/zoom` (tools.py lines 177-179). -/
def bound_min (coords : List ℚ) (zoom : ℚ) : ℚ := listMin coords / zoom

/-- Image boundary `np.max(coords)/zoom` (tools.py lines 177-179). -/
def bound_max (coords : List ℚ) (zoom : ℚ) : ℚ := listMax coords / zoom

/-- The image selected by `model.images[image_nr]`. -/
def selectedImage (model : Model) (image_nr : ℤ) : Image :=
  model.images.getD (pyIdx model.images.length image_nr) default

/-- The regular x grid `xs = np.linspace(x_min, x_max, npix_x)`. -/
def xsOf (model : Model) (image_nr : ℤ) (zoom : ℚ) (npix_x : ℕ) : List ℚ :=
  linspace (bound_min (selectedImage model image_nr).ImX zoom)
    (bound_max (selectedImage model image_nr).ImX zoom) npix_x

/-- The regular y grid `ys = np.linspace(y_min, y_max, npix_y)`. -/
def ysOf (model : Model) (image_nr : ℤ) (zoom : ℚ) (npix_y : ℕ) : List ℚ :=
  linspace (bound_min (selectedImage model image_nr).ImY zoom)
    (bound_max (selectedImage model image_nr).ImY zoom) npix_y

/-- The regular-spacing test on the consecutive frequency differences
(tools.py line 193): true means warn and store no spacing. -/
def irregular (dfreqs : List ℚ) : Bool :=
  fgt (fabs (relative_error (listMax dfreqs) (listMin dfreqs))) (1 / 1000000000)

/-- The FITS header `save_fits` assembles (tools.py lines 205-214). -/
def headerOf (model : Model) (image_nr : ℤ) (zoom : ℚ) (npix_x npix_y : ℕ) :
    Header :=
  { naxis := 3
    naxis1 := model.nfreqs
    naxis2 := npix_x
    naxis3 := npix_y
    centfreq := fmean (model.nu.headD [])
    dpix_x := fmean (npdiff (xsOf model image_nr zoom npix_x))
    dpix_y := fmean (npdiff (ysOf model image_nr zoom npix_y))
    dfreq := if irregular (npdiff (model.nu.headD [])) then none
      else some (fmean (npdiff (model.nu.headD [])))
    im_unit := "W m^-2 Hz^-1 ster^-1" }

/-- Shallow embedding of `save_fits` (tools.py lines 138-217), with the
places where the Python call raises modelled as error outputs carrying the
actions performed until then, in program order:
line 170, `model.images[image_nr]` raises IndexError out of range;
lines 178-179, `np.min`/`np.max` of an empty coordinate array raise
ValueError; line 188, `nu[0]` raises IndexError on an empty frequency
table; line 193, `np.max(dfreqs)` raises ValueError when the consecutive
differences are empty (fewer than two frequency samples), before the
warning is printed; in the loop of lines 201-203, `imI[:, f]` raises
IndexError as soon as f reaches the column count, and the assignment
`zs[f] = griddata(...)` puts a block of shape (npix_y, npix_x) into a slice
of shape (npix_x, npix_y), raising a broadcast ValueError at the first
iteration when the two differ; all these raises happen after the
delete-if-exists step and before the write, so the removal stands and no
file is produced. -/
def save_fits (env : Env) (interp : Interp) (model : Model)
    (filename : Option String) (image_nr : ℤ) (zoom : ℚ)
    (npix_x npix_y : ℕ) : Output :=
  if model.images.length < 1 then
    { printed := ["No images in model."], actions := [], error := none }
  else
    let fname := (resolve env model filename).1
    let dirActs := (resolve env model filename).2.1
    let dirPrints := (resolve env model filename).2.2
    let rmActs := if env.isFile fname then [FsAction.remove fname] else []
    if ¬ pyInRange model.images.length image_nr then
      { printed := dirPrints
        actions := dirActs ++ rmActs
        error := some "IndexError: list index out of range" }
    else
      let img := selectedImage model image_nr
      if img.ImX.length = 0 ∨ img.ImY.length = 0 then
        { printed := dirPrints
          actions := dirActs ++ rmActs
          error := some "ValueError: zero-size array to reduction operation" }
      else if model.nu.length = 0 then
        { printed := dirPrints
          actions := dirActs ++ rmActs
          error := some "IndexError: index 0 is out of bounds" }
      else if (npdiff (model.nu.headD [])).length = 0 then
        { printed := dirPrints
          actions := dirActs ++ rmActs
          error := some "ValueError: zero-size array to reduction operation" }
      else
        let warn := irregular (npdiff (model.nu.headD []))
        let warnPrints :=
          if warn then ["WARNING: No regularly spaced frequency bins!"] else []
        if model.nfreqs = 0 ∨
            (npix_x = npix_y ∧ model.nfreqs ≤ ncols img.I) then
          { printed := dirPrints ++ warnPrints ++ ["Written file to: " ++ fname]
            actions := dirActs ++ rmActs ++
              [FsAction.writeto fname
                (zsOf interp img.ImX img.ImY img.I model.nfreqs
                  (xsOf model image_nr zoom npix_x)
                  (ysOf model image_nr zoom npix_y))
                (headerOf model image_nr zoom npix_x npix_y)]
            error := none }
        else if 1 ≤ ncols img.I ∧ npix_x ≠ npix_y then
          { printed := dirPrints ++ warnPrints
            actions := dirActs ++ rmActs
            error := some "ValueError: could not broadcast input array" }
        else
          { printed := dirPrints ++ warnPrints
            actions := dirActs ++ rmActs
            error := some "IndexError: index out of bounds" }

/-- The cube carried by the final write action of an output ([] when the
call wrote nothing). -/
def writtenCube (o : Output) : List (List (List ℚ)) :=
  match o.actions.getLast? with
  | some (FsAction.writeto _ d _) => d
  | _ => []

/-- The header carried by the final write action of an output. -/
def writtenHeader (o : Output) : Option Header :=
  match o.actions.getLast? with
  | some (FsAction.writeto _ _ hd) => some hd
  | _ => none

/-- The DFREQ field of the written header, when a write happened. -/
def writtenDfreq (o : Output) : Option (Option FVal) :=
  (writtenHeader o).map Header.dfreq

/-- Nearest-neighbour scattered-data interpolation: the value carried by the
sample point closest to the query in squared Euclidean distance, the first
sample winning ties.  A concrete instance of the strategy scipy `griddata`
provides for the default method `nearest` (used below only away from ties). -/
def nearestInterp : Interp := fun px py vals x y =>
  match (px.zip py).zip vals with
  | [] => 0
  | p :: ps =>
    (ps.foldl (fun best q =>
      if (x - q.1.1) ^ 2 + (y - q.1.2) ^ 2 <
          (x - best.1.1) ^ 2 + (y - best.1.2) ^ 2
      then q else best) p).2

/-- A trivial constant interpolation strategy, for concrete instances where
the interpolated values do not matter. -/
def interpT : Interp := fun _ _ _ _ _ => 0

/-- A concrete file-system environment: no directory exists, no file exists. -/
def envT : Env :=
  { dirnameAbs := fun _ => "/tmp/model", existsDir := fun _ => false
    isFile := fun _ => false }

/-- A concrete file-system environment in which every path is a file. -/
def envFile : Env :=
  { dirnameAbs := fun _ => "/tmp/model", existsDir := fun _ => true
    isFile := fun _ => true }

/-- A concrete image: two scattered sample points (0,0) and (2,1) carrying
intensities 1 and 5 in each of two frequency bins. -/
def imgC1 : Image := { ImX := [0, 2], ImY := [0, 1], I := [[1, 1], [5, 5]] }

/-- A concrete one-image model with two frequency bins and a matching
two-column intensity array. -/
def modelC1 : Model :=
  { images := [imgC1], model_name := "m", nfreqs := 2, nu := [[0, 1]] }

/-- A concrete image with a three-column intensity array, matching three
frequency bins. -/
def imgC3 : Image :=
  { ImX := [0, 2], ImY := [0, 1], I := [[1, 1, 1], [5, 5, 5]] }

/-- A concrete model whose frequency bins [1, 2, 3.01] are spaced
irregularly beyond the 1e-9 relative tolerance. -/
def modelC3 : Model :=
  { images := [imgC3], model_name := "m", nfreqs := 3, nu := [[1, 2, 301 / 100]] }

/-- A concrete model with a constant frequency array of three samples,
every consecutive difference zero. -/
def modelC10 : Model :=
  { images := [imgC1], model_name := "m", nfreqs := 2, nu := [[1, 1, 1]] }

/-- A concrete model with no images at all. -/
def modelE : Model :=
  { images := [], model_name := "m", nfreqs := 2, nu := [[1, 2]] }

/-! Radiative quantities (tools.py lines 11-135), embedded over the reals. -/

/-- Speed of light [m/s] (tools.py line 11). -/
noncomputable def c : ℝ := 2.99792458e8

/-- Planck constant [J*s] (tools.py line 12). -/
noncomputable def h : ℝ := 6.62607004e-34

/-- Boltzmann constant [J/K] (tools.py line 13). -/
noncomputable def kb : ℝ := 1.38064852e-23

/-- Atomic mass unit [kg] (tools.py line 14). -/
noncomputable def amu : ℝ := 1.66053904e-27

/-- CMB temperature [K] (tools.py line 15). -/
noncomputable def T_CMB : ℝ := 2.72548

/-- Magritte linedata object: the fields tools.py reads.  The per-level and
per-transition arrays are modelled as functions from the index, with
`nlev` and `nrad` giving the ranges the code iterates over. -/
structure LineData where
  nlev : ℕ
  weight : ℕ → ℝ
  energy : ℕ → ℝ
  nrad : ℕ
  irad : ℕ → ℕ
  jrad : ℕ → ℕ
  frequency : ℕ → ℝ
  A : ℕ → ℝ
  Ba : ℕ → ℝ
  Bs : ℕ → ℝ
  inverse_mass : ℝ

/-- `LTEpop` (tools.py lines 49-60): the Boltzmann factor
`weight[i] * exp(-energy[i]/(kb*T))` per level, then normalisation by the
sum to relative populations. -/
noncomputable def LTEpop (linedata : LineData) (temperature : ℝ) : List ℝ :=
  let pop := List.ofFn fun i : Fin linedata.nlev =>
    linedata.weight i * Real.exp (-(linedata.energy i) / (kb * temperature))
  pop.map fun p => p / pop.sum

/-- `lineEmissivity` (tools.py lines 63-73): for each transition k with
upper level i = irad[k], `eta[k] = h*frequency[k]/(4*pi) * A[k]*pop[i]`. -/
noncomputable def lineEmissivity (linedata : LineData) (pop : ℕ → ℝ) : List ℝ :=
  List.ofFn fun k : Fin linedata.nrad =>
    h * linedata.frequency k / (4 * Real.pi) *
      (linedata.A k * pop (linedata.irad k))

/-- `lineOpacity` (tools.py lines 76-86): for each transition k with
i = irad[k] and j = jrad[k],
`chi[k] = h*frequency[k]/(4*pi) * (Ba[k]*pop[j] - Bs[k]*pop[i])`. -/
noncomputable def lineOpacity (linedata : LineData) (pop : ℕ → ℝ) : List ℝ :=
  List.ofFn fun k : Fin linedata.nrad =>
    h * linedata.frequency k / (4 * Real.pi) *
      (linedata.Ba k * pop (linedata.jrad k) -
        linedata.Bs k * pop (linedata.irad k))

/-- Elementwise numpy division of two equal-length arrays; a zero divisor
produces a non-finite value (inf or NaN), modelled as `none`. -/
noncomputable def ndivide (a b : List ℝ) : List (Option ℝ) :=
  a.zipWith (fun x y => if y = 0 then none else some (x / y)) b

/-- `lineSource` (tools.py lines 89-95): the elementwise quotient of the
emissivity and the opacity arrays. -/
noncomputable def lineSource (linedata : LineData) (pop : ℕ → ℝ) :
    List (Option ℝ) :=
  ndivide (lineEmissivity linedata pop) (lineOpacity linedata pop)

/-- `planck` (tools.py lines 98-102):
`2*h/c^2 * frequency^3 / expm1(h*frequency/(kb*temperature))`, where
`np.expm1 x` is exactly `exp x - 1` over the reals. -/
noncomputable def planck (temperature frequency : ℝ) : ℝ :=
  2 * h / c ^ 2 * frequency ^ 3 /
    (Real.exp (h * frequency / (kb * temperature)) - 1)

/-- `I_CMB` (tools.py lines 105-109): the Planck function at T_CMB. -/
noncomputable def I_CMB (frequency : ℝ) : ℝ := planck T_CMB frequency

/-- A concrete two-level system with unit weights and zero energies. -/
def ldA : LineData :=
  { nlev := 2, weight := fun _ => 1, energy := fun _ => 0, nrad := 0
    irad := fun _ => 0, jrad := fun _ => 0, frequency := fun _ => 0
    A := fun _ => 0, Ba := fun _ => 0, Bs := fun _ => 0, inverse_mass := 1 }

/-- A concrete two-level, one-transition system with a pure
stimulated-emission transition (Ba = 0, Bs = 1), an opacity of negative
sign at unit populations. -/
def ldB : LineData :=
  { nlev := 2, weight := fun _ => 1, energy := fun _ => 0, nrad := 1
    irad := fun _ => 1, jrad := fun _ => 0, frequency := fun _ => 1
    A := fun _ => 1, Ba := fun _ => 0, Bs := fun _ => 1, inverse_mass := 1 }

/-! Helper lemmas. -/

/-- Helper: getD through a map over an index range. -/
theorem getD_map_range {α : Type} (g : ℕ → α) (n i : ℕ) (d : α) (hi : i < n) :
    ((List.range n).map g).getD i d = g i := by
  have hlen : i < ((List.range n).map g).length := by simpa using hi
  rw [List.getD_eq_getElem _ _ hlen, List.getElem_map, List.getElem_range]

/-- Helper: getD through a map over a list. -/
theorem getD_map {α β : Type} (g : α → β) (l : List α) (i : ℕ) (d : β) (dd : α)
    (hi : i < l.length) : (l.map g).getD i d = g (l.getD i dd) := by
  have hlen : i < (l.map g).length := by simpa using hi
  rw [List.getD_eq_getElem _ _ hlen, List.getElem_map,
    List.getD_eq_getElem _ _ hi]

/-- Helper: the cube has one slice per frequency bin. -/
theorem zsOf_length (interp : Interp) (imx imy : List ℚ) (imI : List (List ℚ))
    (nfreqs : ℕ) (xs ys : List ℚ) :
    (zsOf interp imx imy imI nfreqs xs ys).length = nfreqs := by
  simp [zsOf]

/-- Helper: slice f of the cube is the resampling of column f. -/
theorem zsOf_getD (interp : Interp) (imx imy : List ℚ) (imI : List (List ℚ))
    (nfreqs : ℕ) (xs ys : List ℚ) (f : ℕ) (hf : f < nfreqs) :
    (zsOf interp imx imy imI nfreqs xs ys).getD f [] =
      gridSlice interp imx imy (column imI f) xs ys :=
  getD_map_range _ nfreqs f [] hf

/-- Helper: a resampled slice has one row per y grid value and one column
per x grid value. -/
theorem gridSlice_shape (interp : Interp) (imx imy vals xs ys : List ℚ) :
    (gridSlice interp imx imy vals xs ys).length = ys.length ∧
      ∀ row ∈ gridSlice interp imx imy vals xs ys, row.length = xs.length := by
  constructor
  · simp [gridSlice]
  · intro row hrow
    simp only [gridSlice, List.mem_map] at hrow
    obtain ⟨y, -, hy⟩ := hrow
    simp [← hy]

/-- Helper: entry [r][c] of a resampled slice is the interpolation at the
point (xs[c], ys[r]). -/
theorem gridSlice_getD (interp : Interp) (imx imy vals xs ys : List ℚ)
    (r cc : ℕ) (hr : r < ys.length) (hc : cc < xs.length) :
    ((gridSlice interp imx imy vals xs ys).getD r []).getD cc 0 =
      interp imx imy vals (xs.getD cc 0) (ys.getD r 0) := by
  rw [gridSlice, getD_map _ ys r [] 0 hr, getD_map _ xs cc 0 0 hc]

/-- Helper: a linspace grid has the requested number of points. -/
theorem linspace_length (a b : ℚ) (n : ℕ) : (linspace a b n).length = n := by
  rw [linspace, List.length_map, List.length_range]

/-- Helper: point i of a linspace grid. -/
theorem linspace_getD (a b : ℚ) (n i : ℕ) (hi : i < n) :
    (linspace a b n).getD i 0 = a + (b - a) * i / ((n : ℚ) - 1) := by
  rw [linspace]
  exact getD_map_range _ n i 0 hi

/-- Helper: the first linspace point is the left endpoint. -/
theorem linspace_first (a b : ℚ) (n : ℕ) (hn : 0 < n) :
    (linspace a b n).getD 0 0 = a := by
  rw [linspace_getD a b n 0 hn]
  norm_num

/-- Helper: for two or more points, the last linspace point is the right
endpoint. -/
theorem linspace_last (a b : ℚ) (n : ℕ) (hn : 2 ≤ n) :
    (linspace a b n).getD (n - 1) 0 = b := by
  rw [linspace_getD a b n (n - 1) (by omega)]
  have hcast : ((n - 1 : ℕ) : ℚ) = (n : ℚ) - 1 := by
    have h1 : (1 : ℕ) ≤ n := by omega
    push_cast [Nat.cast_sub h1]
    ring
  have hne : (n : ℚ) - 1 ≠ 0 := by
    have h2 : (2 : ℚ) ≤ (n : ℚ) := by exact_mod_cast hn
    intro hcon
    nlinarith
  rw [hcast, mul_div_assoc, div_self hne, mul_one]
  ring

/-- Helper: the fold computing the minimum stays at zero on an all-zero
list. -/
theorem foldl_min_zeros (l : List ℚ) (h0 : ∀ x ∈ l, x = 0) :
    l.foldl min 0 = 0 := by
  induction l with
  | nil => rfl
  | cons x xs ih =>
    have hx : x = 0 := h0 x (by simp)
    simp only [List.foldl_cons, hx, min_self]
    exact ih fun y hy => h0 y (by simp [hy])

/-- Helper: the fold computing the maximum stays at zero on an all-zero
list. -/
theorem foldl_max_zeros (l : List ℚ) (h0 : ∀ x ∈ l, x = 0) :
    l.foldl max 0 = 0 := by
  induction l with
  | nil => rfl
  | cons x xs ih =>
    have hx : x = 0 := h0 x (by simp)
    simp only [List.foldl_cons, hx, max_self]
    exact ih fun y hy => h0 y (by simp [hy])

/-- Helper: the minimum of an all-zero list is zero. -/
theorem listMin_zeros (l : List ℚ) (h0 : ∀ x ∈ l, x = 0) : listMin l = 0 := by
  have hh : l.headD 0 = 0 := by
    cases l with
    | nil => rfl
    | cons x xs => exact h0 x (by simp)
  rw [listMin, hh]
  exact foldl_min_zeros l h0

/-- Helper: the maximum of an all-zero list is zero. -/
theorem listMax_zeros (l : List ℚ) (h0 : ∀ x ∈ l, x = 0) : listMax l = 0 := by
  have hh : l.headD 0 = 0 := by
    cases l with
    | nil => rfl
    | cons x xs => exact h0 x (by simp)
  rw [listMax, hh]
  exact foldl_max_zeros l h0

/-- Helper: the image-presence guard fails exactly on an empty image list. -/
theorem guard_of_ne (model : Model) (him : model.images ≠ []) :
    ¬ model.images.length < 1 := by
  simp [Nat.lt_one_iff, List.length_eq_zero, him]

/-- Helper: one unfolding of a `save_fits` call that passes every raise
point: images present, index in range, nonempty coordinate arrays, a
nonempty frequency table with at least two samples, and a completing loop
(no frequency bin at all, or a square pixel grid with enough intensity
columns). -/
theorem save_fits_run (env : Env) (interp : Interp) (model : Model)
    (filename : Option String) (image_nr : ℤ) (zoom : ℚ) (npix_x npix_y : ℕ)
    (him : model.images ≠ [])
    (hrange : pyInRange model.images.length image_nr)
    (hix : (selectedImage model image_nr).ImX.length ≠ 0)
    (hiy : (selectedImage model image_nr).ImY.length ≠ 0)
    (hnu : model.nu.length ≠ 0)
    (hdf : (npdiff (model.nu.headD [])).length ≠ 0)
    (hok : model.nfreqs = 0 ∨ (npix_x = npix_y ∧
      model.nfreqs ≤ ncols (selectedImage model image_nr).I)) :
    save_fits env interp model filename image_nr zoom npix_x npix_y =
      { printed := (resolve env model filename).2.2 ++
          (if irregular (npdiff (model.nu.headD [])) then
            ["WARNING: No regularly spaced frequency bins!"] else []) ++
          ["Written file to: " ++ (resolve env model filename).1]
        actions := (resolve env model filename).2.1 ++
          (if env.isFile (resolve env model filename).1 then
            [FsAction.remove (resolve env model filename).1] else []) ++
          [FsAction.writeto (resolve env model filename).1
            (zsOf interp (selectedImage model image_nr).ImX
              (selectedImage model image_nr).ImY (selectedImage model image_nr).I
              model.nfreqs (xsOf model image_nr zoom npix_x)
              (ysOf model image_nr zoom npix_y))
            (headerOf model image_nr zoom npix_x npix_y)]
        error := none } := by
  rw [save_fits, if_neg (guard_of_ne model him)]
  simp only []
  rw [if_neg (not_not_intro hrange), if_neg (not_or.mpr ⟨hix, hiy⟩),
    if_neg hnu, if_neg hdf, if_pos hok]

/-- Helper: one unfolding of a `save_fits` call that passes every earlier
raise point and then hits the numpy broadcast error at the first loop
iteration: at least one frequency bin and intensity column, and a
non-square pixel grid.  The removal stands and no file is written. -/
theorem save_fits_run_err (env : Env) (interp : Interp) (model : Model)
    (filename : Option String) (image_nr : ℤ) (zoom : ℚ) (npix_x npix_y : ℕ)
    (him : model.images ≠ [])
    (hrange : pyInRange model.images.length image_nr)
    (hix : (selectedImage model image_nr).ImX.length ≠ 0)
    (hiy : (selectedImage model image_nr).ImY.length ≠ 0)
    (hnu : model.nu.length ≠ 0)
    (hdf : (npdiff (model.nu.headD [])).length ≠ 0)
    (hnf : model.nfreqs ≠ 0)
    (hcols : 1 ≤ ncols (selectedImage model image_nr).I)
    (hne : npix_x ≠ npix_y) :
    save_fits env interp model filename image_nr zoom npix_x npix_y =
      { printed := (resolve env model filename).2.2 ++
          (if irregular (npdiff (model.nu.headD [])) then
            ["WARNING: No regularly spaced frequency bins!"] else [])
        actions := (resolve env model filename).2.1 ++
          (if env.isFile (resolve env model filename).1 then
            [FsAction.remove (resolve env model filename).1] else [])
        error := some "ValueError: could not broadcast input array" } := by
  rw [save_fits, if_neg (guard_of_ne model him)]
  simp only []
  rw [if_neg (not_not_intro hrange), if_neg (not_or.mpr ⟨hix, hiy⟩),
    if_neg hnu, if_neg hdf,
    if_neg (not_or.mpr ⟨hnf, fun hand => hne hand.1⟩),
    if_pos ⟨hcols, hne⟩]

/-- Helper: the warning line never coincides with a directory-creation
line, whatever the directory. -/
theorem warning_ne_created (s : String) :
    "WARNING: No regularly spaced frequency bins!" ≠
      "Created image directory: " ++ s := by
  intro hcon
  have hd := congrArg String.data hcon
  rw [String.data_append] at hd
  have h1 : ("WARNING: No regularly spaced frequency bins!").data =
      'W' :: "ARNING: No regularly spaced frequency bins!".data := rfl
  have h2 : ("Created image directory: ").data =
      'C' :: "reated image directory: ".data := rfl
  rw [h1, h2] at hd
  simp at hd

/-- Helper: the warning line never coincides with a final-report line,
whatever the file name. -/
theorem warning_ne_written (s : String) :
    "WARNING: No regularly spaced frequency bins!" ≠
      "Written file to: " ++ s := by
  intro hcon
  have hd := congrArg String.data hcon
  rw [String.data_append] at hd
  have h1 : ("WARNING: No regularly spaced frequency bins!").data =
      'W' :: "ARNING: No regularly spaced frequency bins!".data := rfl
  have h2 : ("Written file to: ").data =
      'W' :: "ritten file to: ".data := rfl
  rw [h1, h2] at hd
  simp at hd

/-- Helper: path resolution prints nothing or one directory-creation line. -/
theorem resolve_prints (env : Env) (model : Model) (filename : Option String) :
    (resolve env model filename).2.2 = [] ∨
    ∃ s, (resolve env model filename).2.2 = ["Created image directory: " ++ s] := by
  rw [resolve]
  by_cases hf : falsy filename
  · simp only [hf, if_true]
    by_cases he : env.existsDir (env.dirnameAbs model.model_name ++ "/images/")
    · left
      simp [he]
    · right
      exact ⟨env.dirnameAbs model.model_name ++ "/images/", by simp [he]⟩
  · left
    simp [hf]

/-! The claims. -/

/-- C8: a save_fits call on a model whose image collection is empty prints
the user-visible notice, returns normally, and performs no file-system
action at all: no directory creation, no file deletion, no write. -/
theorem save_fits_no_images_spec (env : Env) (interp : Interp) (model : Model)
    (filename : Option String) (image_nr : ℤ) (zoom : ℚ) (npix_x npix_y : ℕ)
    (him : model.images = []) :
    save_fits env interp model filename image_nr zoom npix_x npix_y =
      { printed := ["No images in model."], actions := [], error := none } := by
  rw [save_fits, if_pos]
  simp [him]

/-- C8 witness: the empty-image model at concrete arguments. -/
theorem save_fits_no_images_witness :
    modelE.images = [] ∧
    save_fits envT interpT modelE none (-1) (13 / 10) 300 300 =
      { printed := ["No images in model."], actions := [], error := none } :=
  ⟨rfl, save_fits_no_images_spec envT interpT modelE none (-1) (13 / 10) 300 300 rfl⟩

/-- C9: when a file already exists at the resolved target path and the call
reaches the write (images present, selected index in range, nonempty
coordinates, at least two frequency samples, square grid with enough
intensity columns), save_fits first removes that file and then writes the
cube to the same path: the action sequence is the resolution's directory
actions, the removal, then the write, and the call returns normally instead
of raising an already-exists error or appending. -/
theorem save_fits_overwrite_spec (env : Env) (interp : Interp) (model : Model)
    (filename : Option String) (image_nr : ℤ) (zoom : ℚ) (npix_x npix_y : ℕ)
    (him : model.images ≠ [])
    (hrange : pyInRange model.images.length image_nr)
    (hix : (selectedImage model image_nr).ImX.length ≠ 0)
    (hiy : (selectedImage model image_nr).ImY.length ≠ 0)
    (hnu : model.nu.length ≠ 0)
    (hdf : (npdiff (model.nu.headD [])).length ≠ 0)
    (hsq : npix_x = npix_y)
    (hcols : model.nfreqs ≤ ncols (selectedImage model image_nr).I)
    (hex : env.isFile (resolve env model filename).1 = true) :
    ∃ zs hdr,
      (save_fits env interp model filename image_nr zoom npix_x npix_y).actions =
        (resolve env model filename).2.1 ++
          [FsAction.remove (resolve env model filename).1,
           FsAction.writeto (resolve env model filename).1 zs hdr] ∧
      (save_fits env interp model filename image_nr zoom npix_x npix_y).error =
        none := by
  rw [save_fits_run env interp model filename image_nr zoom npix_x npix_y him
    hrange hix hiy hnu hdf (Or.inr ⟨hsq, hcols⟩)]
  refine ⟨zsOf interp (selectedImage model image_nr).ImX
      (selectedImage model image_nr).ImY (selectedImage model image_nr).I
      model.nfreqs (xsOf model image_nr zoom npix_x)
      (ysOf model image_nr zoom npix_y),
    headerOf model image_nr zoom npix_x npix_y, ?_, rfl⟩
  rw [if_pos hex]
  simp

/-- C9 witness: the overwriting behaviour at a concrete call with a file
already present at the target path. -/
theorem save_fits_overwrite_witness :
    envFile.isFile (resolve envFile modelC1 (some "out.fits")).1 = true ∧
    ∃ zs hdr,
      (save_fits envFile interpT modelC1 (some "out.fits") (-1) (13 / 10) 2 2).actions =
        (resolve envFile modelC1 (some "out.fits")).2.1 ++
          [FsAction.remove (resolve envFile modelC1 (some "out.fits")).1,
           FsAction.writeto (resolve envFile modelC1 (some "out.fits")).1 zs hdr] ∧
      (save_fits envFile interpT modelC1 (some "out.fits") (-1) (13 / 10) 2 2).error =
        none :=
  ⟨rfl, save_fits_overwrite_spec envFile interpT modelC1 (some "out.fits") (-1)
    (13 / 10) 2 2 (by simp [modelC1])
    (by norm_num [modelC1, pyInRange])
    (by simp [modelC1, selectedImage, pyIdx, imgC1])
    (by simp [modelC1, selectedImage, pyIdx, imgC1])
    (by simp [modelC1])
    (by simp [modelC1, npdiff])
    rfl
    (by norm_num [modelC1, selectedImage, pyIdx, imgC1, ncols])
    rfl⟩

/-- C3: for a call that reaches the regularity check and completes the loop
(images present, selected index in range, nonempty coordinates, at least
two frequency samples, square grid with enough intensity columns), when the
consecutive frequency differences fail the 1e-9 relative-tolerance test
(as the bins [1, 2, 3.01] of the witness do) the call still returns
normally and its final action writes the file, the warning line is printed,
and the header stores no frequency spacing; otherwise no warning is printed
and the header stores the finite mean of the consecutive differences. -/
theorem save_fits_dfreq_spec (env : Env) (interp : Interp) (model : Model)
    (filename : Option String) (image_nr : ℤ) (zoom : ℚ) (npix_x npix_y : ℕ)
    (him : model.images ≠ [])
    (hrange : pyInRange model.images.length image_nr)
    (hix : (selectedImage model image_nr).ImX.length ≠ 0)
    (hiy : (selectedImage model image_nr).ImY.length ≠ 0)
    (hnu : model.nu.length ≠ 0)
    (hdf : (npdiff (model.nu.headD [])).length ≠ 0)
    (hsq : npix_x = npix_y)
    (hcols : model.nfreqs ≤ ncols (selectedImage model image_nr).I) :
    (irregular (npdiff (model.nu.headD [])) = true →
      (save_fits env interp model filename image_nr zoom npix_x npix_y).error =
        none ∧
      "WARNING: No regularly spaced frequency bins!" ∈
        (save_fits env interp model filename image_nr zoom npix_x npix_y).printed ∧
      (∃ fname zs,
        (save_fits env interp model filename image_nr zoom
            npix_x npix_y).actions.getLast? =
          some (FsAction.writeto fname zs
            (headerOf model image_nr zoom npix_x npix_y))) ∧
      (headerOf model image_nr zoom npix_x npix_y).dfreq = none) ∧
    (irregular (npdiff (model.nu.headD [])) = false →
      (save_fits env interp model filename image_nr zoom npix_x npix_y).error =
        none ∧
      "WARNING: No regularly spaced frequency bins!" ∉
        (save_fits env interp model filename image_nr zoom npix_x npix_y).printed ∧
      (headerOf model image_nr zoom npix_x npix_y).dfreq =
        some (FVal.fin (npmean (npdiff (model.nu.headD []))))) := by
  rw [save_fits_run env interp model filename image_nr zoom npix_x npix_y him
    hrange hix hiy hnu hdf (Or.inr ⟨hsq, hcols⟩)]
  constructor
  · intro hirr
    refine ⟨rfl, ?_, ?_, ?_⟩
    · rw [if_pos hirr]
      simp
    · exact ⟨(resolve env model filename).1,
        zsOf interp (selectedImage model image_nr).ImX
          (selectedImage model image_nr).ImY (selectedImage model image_nr).I
          model.nfreqs (xsOf model image_nr zoom npix_x)
          (ysOf model image_nr zoom npix_y),
        by rw [List.getLast?_concat]⟩
    · simp only [headerOf]
      rw [if_pos hirr]
  · intro hreg
    have hnirr : ¬ irregular (npdiff (model.nu.headD [])) = true := by
      rw [hreg]
      exact Bool.false_ne_true
    refine ⟨rfl, ?_, ?_⟩
    · rw [if_neg hnirr, List.append_nil, List.mem_append]
      push_neg
      constructor
      · rcases resolve_prints env model filename with hp | ⟨s, hp⟩
        · simp [hp]
        · simp only [hp, List.mem_singleton]
          exact warning_ne_created s
      · simp only [List.mem_singleton]
        exact warning_ne_written (resolve env model filename).1
    · simp only [headerOf]
      rw [if_neg hnirr, fmean, if_neg hdf]

/-- C3 witness: the concrete frequency bins [1, 2, 3.01] are irregular
beyond the tolerance, and the call completes, warns and stores no
spacing. -/
theorem save_fits_dfreq_witness :
    irregular (npdiff (modelC3.nu.headD [])) = true ∧
    (save_fits envT interpT modelC3 (some "o.fits") (-1) (13 / 10) 2 2).error =
      none ∧
    "WARNING: No regularly spaced frequency bins!" ∈
      (save_fits envT interpT modelC3 (some "o.fits") (-1) (13 / 10) 2 2).printed ∧
    (headerOf modelC3 (-1) (13 / 10) 2 2).dfreq = none := by
  have hirr : irregular (npdiff (modelC3.nu.headD [])) = true := by
    norm_num [modelC3, irregular, npdiff, listMin, listMax, fgt, fabs,
      relative_error, fdiv, abs_of_nonneg]
  have happ := save_fits_dfreq_spec envT interpT modelC3 (some "o.fits") (-1)
    (13 / 10) 2 2 (by simp [modelC3])
    (by norm_num [modelC3, pyInRange])
    (by simp [modelC3, selectedImage, pyIdx, imgC3])
    (by simp [modelC3, selectedImage, pyIdx, imgC3])
    (by simp [modelC3])
    (by simp [modelC3, npdiff])
    rfl
    (by norm_num [modelC3, selectedImage, pyIdx, imgC3, ncols])
  obtain ⟨hbr, -⟩ := happ
  obtain ⟨he, hw, -, hdfreq⟩ := hbr hirr
  exact ⟨hirr, he, hw, hdfreq⟩

/-- Helper: on one axis, the grid box scaled by zoom: extent divided by
zoom, grid spanning [min/zoom, max/zoom], centre moved to the raw centre
divided by zoom. -/
theorem bbox_axis (coords : List ℚ) (zoom : ℚ) (n : ℕ) (hn : 2 ≤ n) :
    bound_max coords zoom - bound_min coords zoom =
      (listMax coords - listMin coords) / zoom ∧
    (linspace (bound_min coords zoom) (bound_max coords zoom) n).getD 0 0 =
      bound_min coords zoom ∧
    (linspace (bound_min coords zoom) (bound_max coords zoom) n).getD (n - 1) 0 =
      bound_max coords zoom ∧
    (bound_min coords zoom + bound_max coords zoom) / 2 =
      ((listMin coords + listMax coords) / 2) / zoom ∧
    ((bound_min coords zoom + bound_max coords zoom) / 2 =
        (listMin coords + listMax coords) / 2 ↔
      zoom = 1 ∨ (listMin coords + listMax coords) / 2 = 0) := by
  have hc : (bound_min coords zoom + bound_max coords zoom) / 2 =
      ((listMin coords + listMax coords) / 2) / zoom := by
    rw [bound_min, bound_max, div_add_div_same, div_div, div_div, mul_comm]
  refine ⟨?_, ?_, ?_, hc, ?_⟩
  · rw [bound_max, bound_min, div_sub_div_same]
  · exact linspace_first _ _ n (by omega)
  · exact linspace_last _ _ n hn
  · rw [hc]
    constructor
    · intro heq
      by_cases hz : zoom = 0
      · right
        rw [hz, div_zero] at heq
        exact heq.symm
      · rw [div_eq_iff hz] at heq
        rcases mul_right_eq_self₀.mp heq.symm with h1 | h0
        · exact Or.inl h1
        · exact Or.inr h0
    · rintro (h1 | h0)
      · rw [h1, div_one]
      · rw [h0, zero_div]

/-- C2 (amended): on each axis the regular grid spans a box whose extent is
the raw extent (max minus min of the scattered coordinates) divided by
zoom, running exactly from min/zoom to max/zoom; the centre of that box is
the raw centre divided by zoom, so the crop moves the field of view toward
the coordinate origin and coincides with a crop around the image centre
exactly when zoom = 1 or the raw centre is already 0. -/
theorem save_fits_bbox_spec (model : Model) (image_nr : ℤ) (zoom : ℚ)
    (npix_x npix_y : ℕ) (hx : 2 ≤ npix_x) (hy : 2 ≤ npix_y) :
    (bound_max (selectedImage model image_nr).ImX zoom -
        bound_min (selectedImage model image_nr).ImX zoom =
      (listMax (selectedImage model image_nr).ImX -
        listMin (selectedImage model image_nr).ImX) / zoom ∧
    (xsOf model image_nr zoom npix_x).getD 0 0 =
      bound_min (selectedImage model image_nr).ImX zoom ∧
    (xsOf model image_nr zoom npix_x).getD (npix_x - 1) 0 =
      bound_max (selectedImage model image_nr).ImX zoom ∧
    (bound_min (selectedImage model image_nr).ImX zoom +
        bound_max (selectedImage model image_nr).ImX zoom) / 2 =
      ((listMin (selectedImage model image_nr).ImX +
        listMax (selectedImage model image_nr).ImX) / 2) / zoom ∧
    ((bound_min (selectedImage model image_nr).ImX zoom +
        bound_max (selectedImage model image_nr).ImX zoom) / 2 =
        (listMin (selectedImage model image_nr).ImX +
          listMax (selectedImage model image_nr).ImX) / 2 ↔
      zoom = 1 ∨ (listMin (selectedImage model image_nr).ImX +
        listMax (selectedImage model image_nr).ImX) / 2 = 0)) ∧
    (bound_max (selectedImage model image_nr).ImY zoom -
        bound_min (selectedImage model image_nr).ImY zoom =
      (listMax (selectedImage model image_nr).ImY -
        listMin (selectedImage model image_nr).ImY) / zoom ∧
    (ysOf model image_nr zoom npix_y).getD 0 0 =
      bound_min (selectedImage model image_nr).ImY zoom ∧
    (ysOf model image_nr zoom npix_y).getD (npix_y - 1) 0 =
      bound_max (selectedImage model image_nr).ImY zoom ∧
    (bound_min (selectedImage model image_nr).ImY zoom +
        bound_max (selectedImage model image_nr).ImY zoom) / 2 =
      ((listMin (selectedImage model image_nr).ImY +
        listMax (selectedImage model image_nr).ImY) / 2) / zoom ∧
    ((bound_min (selectedImage model image_nr).ImY zoom +
        bound_max (selectedImage model image_nr).ImY zoom) / 2 =
        (listMin (selectedImage model image_nr).ImY +
          listMax (selectedImage model image_nr).ImY) / 2 ↔
      zoom = 1 ∨ (listMin (selectedImage model image_nr).ImY +
        listMax (selectedImage model image_nr).ImY) / 2 = 0)) :=
  ⟨bbox_axis (selectedImage model image_nr).ImX zoom npix_x hx,
   bbox_axis (selectedImage model image_nr).ImY zoom npix_y hy⟩

/-- C2 witness: the x axis of a concrete model at zoom 2 and two pixels. -/
theorem save_fits_bbox_witness :
    (2 : ℕ) ≤ 2 ∧
    (xsOf modelC1 (-1) 2 2).getD 0 0 =
      bound_min (selectedImage modelC1 (-1)).ImX 2 ∧
    (bound_min (selectedImage modelC1 (-1)).ImX 2 +
        bound_max (selectedImage modelC1 (-1)).ImX 2) / 2 =
      ((listMin (selectedImage modelC1 (-1)).ImX +
        listMax (selectedImage modelC1 (-1)).ImX) / 2) / 2 := by
  have happ := save_fits_bbox_spec modelC1 (-1) 2 2 2 (by norm_num) (by norm_num)
  exact ⟨by norm_num, happ.1.2.1, happ.1.2.2.2.1⟩

/-- C2 counterexample: for scattered x coordinates [1, 3] and zoom 2 the
per-axis extent is halved as the claim states, but the box centre is 1
while the raw bounding-box centre is 2: the cropped box is not centred on
the image centre. -/
theorem save_fits_bbox_cex :
    bound_max [1, 3] 2 - bound_min [1, 3] 2 =
      (listMax [1, 3] - listMin [1, 3]) / 2 ∧
    (bound_min [1, 3] 2 + bound_max [1, 3] 2) / 2 = 1 ∧
    (listMin [1, 3] + listMax [1, 3]) / 2 = 2 ∧
    (bound_min [1, 3] 2 + bound_max [1, 3] 2) / 2 ≠
      (listMin [1, 3] + listMax [1, 3]) / 2 := by
  norm_num [bound_min, bound_max, listMin, listMax]

/-- C1 (amended): for a call that reaches the interpolation loop (images
present, selected index in range, nonempty coordinates, at least two
frequency samples) with enough intensity columns, a write happens only when
npix_x = npix_y — otherwise the loop raises the broadcast error as soon as
there is one frequency bin, and no file is written; the written cube then
has nfreqs slices of npix_x rows of npix_y entries, numerically the claimed
shape (F, npix_x, npix_y), each slice resampled from its own frequency
column independently, but entry [f][r][c] is the interpolation evaluated at
the grid point (xs[c], ys[r]): the two spatial indices are
(y-pixel, x-pixel), transposed with respect to the claim. -/
theorem save_fits_cube_spec (env : Env) (interp : Interp) (model : Model)
    (filename : Option String) (image_nr : ℤ) (zoom : ℚ) (npix_x npix_y : ℕ)
    (him : model.images ≠ [])
    (hrange : pyInRange model.images.length image_nr)
    (hix : (selectedImage model image_nr).ImX.length ≠ 0)
    (hiy : (selectedImage model image_nr).ImY.length ≠ 0)
    (hnu : model.nu.length ≠ 0)
    (hdf : (npdiff (model.nu.headD [])).length ≠ 0)
    (hsq : npix_x = npix_y)
    (hcols : model.nfreqs ≤ ncols (selectedImage model image_nr).I) :
    ∃ fname hdr,
      (save_fits env interp model filename image_nr zoom npix_x npix_y).error =
        none ∧
      (save_fits env interp model filename image_nr zoom
          npix_x npix_y).actions.getLast? =
        some (FsAction.writeto fname
          (zsOf interp (selectedImage model image_nr).ImX
            (selectedImage model image_nr).ImY (selectedImage model image_nr).I
            model.nfreqs (xsOf model image_nr zoom npix_x)
            (ysOf model image_nr zoom npix_y)) hdr) ∧
      (zsOf interp (selectedImage model image_nr).ImX
        (selectedImage model image_nr).ImY (selectedImage model image_nr).I
        model.nfreqs (xsOf model image_nr zoom npix_x)
        (ysOf model image_nr zoom npix_y)).length = model.nfreqs ∧
      (∀ sl ∈ zsOf interp (selectedImage model image_nr).ImX
          (selectedImage model image_nr).ImY (selectedImage model image_nr).I
          model.nfreqs (xsOf model image_nr zoom npix_x)
          (ysOf model image_nr zoom npix_y),
        sl.length = npix_x ∧ ∀ row ∈ sl, row.length = npix_y) ∧
      (∀ f r cc : ℕ, f < model.nfreqs → r < npix_y → cc < npix_x →
        (((zsOf interp (selectedImage model image_nr).ImX
            (selectedImage model image_nr).ImY (selectedImage model image_nr).I
            model.nfreqs (xsOf model image_nr zoom npix_x)
            (ysOf model image_nr zoom npix_y)).getD f []).getD r []).getD cc 0 =
          interp (selectedImage model image_nr).ImX
            (selectedImage model image_nr).ImY
            (column (selectedImage model image_nr).I f)
            ((xsOf model image_nr zoom npix_x).getD cc 0)
            ((ysOf model image_nr zoom npix_y).getD r 0)) ∧
      (∀ nx ny : ℕ, nx ≠ ny → model.nfreqs ≠ 0 →
        (save_fits env interp model filename image_nr zoom nx ny).error =
          some "ValueError: could not broadcast input array") := by
  refine ⟨(resolve env model filename).1,
    headerOf model image_nr zoom npix_x npix_y, ?_, ?_, ?_, ?_, ?_, ?_⟩
  · rw [save_fits_run env interp model filename image_nr zoom npix_x npix_y him
      hrange hix hiy hnu hdf (Or.inr ⟨hsq, hcols⟩)]
  · rw [save_fits_run env interp model filename image_nr zoom npix_x npix_y him
      hrange hix hiy hnu hdf (Or.inr ⟨hsq, hcols⟩)]
    exact List.getLast?_concat _
  · exact zsOf_length _ _ _ _ _ _ _
  · intro sl hsl
    simp only [zsOf, List.mem_map] at hsl
    obtain ⟨f, -, hf⟩ := hsl
    have hshape := gridSlice_shape interp (selectedImage model image_nr).ImX
      (selectedImage model image_nr).ImY
      (column (selectedImage model image_nr).I f)
      (xsOf model image_nr zoom npix_x) (ysOf model image_nr zoom npix_y)
    constructor
    · rw [← hf, hshape.1, ysOf, linspace_length, ← hsq]
    · intro row hrow
      rw [hshape.2 row (by rw [hf]; exact hrow), xsOf, linspace_length, hsq]
  · intro f r cc hf hr hc
    rw [zsOf_getD _ _ _ _ _ _ _ f hf]
    exact gridSlice_getD _ _ _ _ _ _ r cc
      (by rw [ysOf, linspace_length]; exact hr)
      (by rw [xsOf, linspace_length]; exact hc)
  · intro nx ny hne hnf
    rw [save_fits_run_err env interp model filename image_nr zoom nx ny him
      hrange hix hiy hnu hdf hnf (by omega) hne]

/-- C1 witness: a concrete call with the nearest-neighbour strategy
returns normally and its slices are one per frequency bin. -/
theorem save_fits_cube_witness :
    modelC1.images ≠ [] ∧
    (save_fits envT nearestInterp modelC1 (some "im.fits") (-1) 1 2 2).error =
      none := by
  refine ⟨by simp [modelC1], ?_⟩
  obtain ⟨fname, hdr, he, -⟩ := save_fits_cube_spec envT nearestInterp modelC1
    (some "im.fits") (-1) 1 2 2 (by simp [modelC1])
    (by norm_num [modelC1, pyInRange])
    (by simp [modelC1, selectedImage, pyIdx, imgC1])
    (by simp [modelC1, selectedImage, pyIdx, imgC1])
    (by simp [modelC1])
    (by simp [modelC1, npdiff])
    rfl
    (by norm_num [modelC1, selectedImage, pyIdx, imgC1, ncols])
  exact he

/-- C1 counterexample: with nearest-neighbour interpolation of the two
scattered points (0,0) carrying 1 and (2,1) carrying 5, on the grid
xs = [0, 2], ys = [0, 1], the written cube entry [0][0][1] is 5 — the value
interpolated at (xs[1], ys[0]) — while the interpolation at (xs[0], ys[1])
is 1: slice entries are not indexed (x-pixel, y-pixel). -/
theorem save_fits_cube_cex :
    (((writtenCube (save_fits envT nearestInterp modelC1 (some "im.fits") (-1)
        1 2 2)).getD 0 []).getD 0 []).getD 1 0 = 5 ∧
    nearestInterp imgC1.ImX imgC1.ImY (column imgC1.I 0)
      ((xsOf modelC1 (-1) 1 2).getD 0 0) ((ysOf modelC1 (-1) 1 2).getD 1 0) = 1 ∧
    (5 : ℚ) ≠ 1 := by
  norm_num [writtenCube, save_fits, resolve, falsy, selectedImage, pyIdx,
    pyInRange, ncols, modelC1, imgC1, envT, xsOf, ysOf, bound_min, bound_max,
    listMin, listMax, linspace, List.range_succ, zsOf, gridSlice, column,
    nearestInterp, irregular, npdiff, npmean, fmean, relative_error, fdiv,
    fgt, fabs, headerOf]

/-- C10 (amended): relative_error divides with no guard on the denominator,
so whenever a + b = 0 it divides by zero, giving NaN when also a = b and a
signed infinity otherwise.  The exporter check evaluates it on the maximum
and minimum consecutive frequency differences; for a constant frequency
array both are 0, the value is NaN, the NaN comparison with the tolerance
is false, and save_fits therefore silently classifies the spacing as
uniform: it stores spacing 0 (the mean of the zero differences), prints no
warning, and returns normally. -/
theorem relative_error_unguarded_spec (a b : ℚ) (hab : a + b = 0)
    (env : Env) (interp : Interp) (model : Model) (filename : Option String)
    (image_nr : ℤ) (zoom : ℚ) (npix_x npix_y : ℕ)
    (him : model.images ≠ [])
    (hrange : pyInRange model.images.length image_nr)
    (hix : (selectedImage model image_nr).ImX.length ≠ 0)
    (hiy : (selectedImage model image_nr).ImY.length ≠ 0)
    (hnu : model.nu.length ≠ 0)
    (hdf : (npdiff (model.nu.headD [])).length ≠ 0)
    (hsq : npix_x = npix_y)
    (hcols : model.nfreqs ≤ ncols (selectedImage model image_nr).I)
    (hconst : ∀ d ∈ npdiff (model.nu.headD []), d = 0) :
    relative_error a b =
      (if a = b then FVal.nan else if b < a then FVal.inf else FVal.ninf) ∧
    irregular (npdiff (model.nu.headD [])) = false ∧
    (headerOf model image_nr zoom npix_x npix_y).dfreq =
      some (FVal.fin 0) ∧
    (save_fits env interp model filename image_nr zoom npix_x npix_y).error =
      none ∧
    (save_fits env interp model filename image_nr zoom npix_x npix_y).printed =
      (resolve env model filename).2.2 ++
        ["Written file to: " ++ (resolve env model filename).1] := by
  have hzero : irregular (npdiff (model.nu.headD [])) = false := by
    rw [irregular, listMax_zeros _ hconst, listMin_zeros _ hconst]
    have hnan : relative_error 0 0 = FVal.nan := by
      rw [relative_error, fdiv, if_pos (by norm_num), if_pos (by norm_num)]
    rw [hnan]
    rfl
  have hnirr : ¬ irregular (npdiff (model.nu.headD [])) = true := by
    rw [hzero]
    exact Bool.false_ne_true
  refine ⟨?_, hzero, ?_, ?_, ?_⟩
  · by_cases heqab : a = b
    · rw [if_pos heqab, relative_error, fdiv, if_pos hab, if_pos (by
        rw [heqab]
        ring)]
    · rw [if_neg heqab, relative_error, fdiv, if_pos hab,
        if_neg (fun hcon => heqab (by linarith))]
      by_cases hba : b < a
      · rw [if_pos hba, if_pos (by linarith)]
      · rw [if_neg hba, if_neg (by
          intro hcon
          apply hba
          linarith)]
  · simp only [headerOf]
    rw [if_neg hnirr, fmean, if_neg hdf, npmean, List.sum_eq_zero hconst,
      zero_div]
  · rw [save_fits_run env interp model filename image_nr zoom npix_x npix_y him
      hrange hix hiy hnu hdf (Or.inr ⟨hsq, hcols⟩)]
  · rw [save_fits_run env interp model filename image_nr zoom npix_x npix_y him
      hrange hix hiy hnu hdf (Or.inr ⟨hsq, hcols⟩)]
    rw [if_neg hnirr, List.append_nil]

/-- C10 witness: concrete values summing to zero and a concrete constant
frequency array, with the silent uniform classification. -/
theorem relative_error_unguarded_witness :
    (0 : ℚ) + 0 = 0 ∧
    relative_error 0 0 = FVal.nan ∧
    irregular (npdiff (modelC10.nu.headD [])) = false ∧
    (headerOf modelC10 (-1) (13 / 10) 2 2).dfreq = some (FVal.fin 0) := by
  have happ := relative_error_unguarded_spec 0 0 (by norm_num) envT interpT
    modelC10 (some "im.fits") (-1) (13 / 10) 2 2 (by simp [modelC10])
    (by norm_num [modelC10, pyInRange])
    (by simp [modelC10, selectedImage, pyIdx, imgC1])
    (by simp [modelC10, selectedImage, pyIdx, imgC1])
    (by simp [modelC10])
    (by simp [modelC10, npdiff])
    rfl
    (by norm_num [modelC10, selectedImage, pyIdx, imgC1, ncols])
    (by
      intro d hd
      simp [modelC10, npdiff] at hd
      norm_num [hd])
  exact ⟨by norm_num, by simpa using happ.1, happ.2.1, happ.2.2.1⟩

/-- C10 counterexample: on the constant frequency array [1, 1, 1] the check
value is NaN as the claim says, but the outcome is not left undefined in
the control flow: the NaN comparison is false, the warning is not printed,
and the file is written with the uniform-spacing field set to 0 — the
spacing is classified as uniform. -/
theorem relative_error_unguarded_cex :
    relative_error (listMax (npdiff [(1 : ℚ), 1, 1]))
      (listMin (npdiff [(1 : ℚ), 1, 1])) = FVal.nan ∧
    irregular (npdiff [(1 : ℚ), 1, 1]) = false ∧
    writtenDfreq (save_fits envT interpT modelC10 (some "im.fits") (-1) 1 2 2) =
      some (some (FVal.fin 0)) ∧
    ¬ ("WARNING: No regularly spaced frequency bins!" ∈
      (save_fits envT interpT modelC10 (some "im.fits") (-1) 1 2 2).printed) := by
  refine ⟨by norm_num [npdiff, listMin, listMax, relative_error, fdiv], ?_, ?_, ?_⟩ <;>
    simp [writtenDfreq, writtenHeader, save_fits, resolve, falsy, selectedImage,
      pyIdx, pyInRange, ncols, modelC10, imgC1, envT, xsOf, ysOf, bound_min,
      bound_max, listMin, listMax, linspace, List.range_succ, zsOf, gridSlice,
      column, interpT, irregular, npdiff, npmean, fmean, relative_error, fdiv,
      fgt, fabs, headerOf]

/-- Helper: getD of an ofFn list within range. -/
theorem ofFn_getD {α : Type} {n : ℕ} (f : Fin n → α) (k : ℕ) (hk : k < n)
    (d : α) : (List.ofFn f).getD k d = f ⟨k, hk⟩ := by
  have hlen : k < (List.ofFn f).length := by
    rw [List.length_ofFn]
    exact hk
  rw [List.getD_eq_getElem _ _ hlen, List.getElem_ofFn]

/-- Helper: the sum of a list after dividing every entry by one value. -/
theorem sum_map_div (m : List ℝ) (s : ℝ) :
    (m.map fun p => p / s).sum = m.sum / s := by
  induction m with
  | nil => simp
  | cons x xs ih => simp [ih, add_div]

/-- Helper: normalising a list of nonnegative reals with positive sum gives
nonnegative entries summing exactly to 1, each a fixed positive multiple of
the original entry. -/
theorem normalize_list (l : List ℝ) (hnn : ∀ x ∈ l, 0 ≤ x) (hS : 0 < l.sum) :
    (l.map fun p => p / l.sum).length = l.length ∧
    (∀ i : ℕ, i < l.length →
      (l.map fun p => p / l.sum).getD i 0 = (l.sum)⁻¹ * l.getD i 0) ∧
    (∀ x ∈ l.map fun p => p / l.sum, 0 ≤ x) ∧
    (l.map fun p => p / l.sum).sum = 1 := by
  refine ⟨List.length_map _ _, ?_, ?_, ?_⟩
  · intro i hi
    rw [getD_map _ l i 0 0 hi, div_eq_inv_mul]
  · intro x hx
    rw [List.mem_map] at hx
    obtain ⟨p, hp, hpx⟩ := hx
    rw [← hpx]
    exact div_nonneg (hnn p hp) hS.le
  · rw [sum_map_div, div_self hS.ne']

/-- C4: for positive temperature and nonnegative statistical weights with
at least one positive level weight (the physical content of a LineData
record), LTEpop returns nlev entries; each entry i is one fixed positive
multiple of weight[i]*exp(-energy[i]/(kb*T)); all entries are nonnegative
and their sum is exactly 1, hence within the 1e-9 tolerance. -/
theorem LTEpop_spec (ld : LineData) (T : ℝ) (hT : 0 < T)
    (hw : ∀ i, 0 ≤ ld.weight i)
    (hpos : ∃ i, i < ld.nlev ∧ 0 < ld.weight i) :
    (LTEpop ld T).length = ld.nlev ∧
    (∃ cnorm : ℝ, 0 < cnorm ∧ ∀ i : ℕ, i < ld.nlev →
      (LTEpop ld T).getD i 0 =
        cnorm * (ld.weight i * Real.exp (-(ld.energy i) / (kb * T)))) ∧
    (∀ x ∈ LTEpop ld T, 0 ≤ x) ∧
    (LTEpop ld T).sum = 1 ∧ |(LTEpop ld T).sum - 1| ≤ 1 / 1000000000 := by
  have hnn : ∀ x ∈ List.ofFn (fun i : Fin ld.nlev =>
      ld.weight i * Real.exp (-(ld.energy i) / (kb * T))), 0 ≤ x := by
    intro x hx
    rw [List.mem_ofFn] at hx
    obtain ⟨j, hj⟩ := hx
    rw [← hj]
    exact mul_nonneg (hw j) (Real.exp_pos _).le
  have hS : 0 < (List.ofFn (fun i : Fin ld.nlev =>
      ld.weight i * Real.exp (-(ld.energy i) / (kb * T)))).sum := by
    rw [List.sum_ofFn]
    obtain ⟨i, hi, hwi⟩ := hpos
    exact Finset.sum_pos'
      (fun j _ => mul_nonneg (hw j) (Real.exp_pos _).le)
      ⟨⟨i, hi⟩, Finset.mem_univ _, mul_pos hwi (Real.exp_pos _)⟩
  obtain ⟨hlen, hget, hnn2, hsum1⟩ := normalize_list _ hnn hS
  have hLTE : LTEpop ld T = (List.ofFn (fun i : Fin ld.nlev =>
      ld.weight i * Real.exp (-(ld.energy i) / (kb * T)))).map
      (fun p => p / (List.ofFn (fun i : Fin ld.nlev =>
        ld.weight i * Real.exp (-(ld.energy i) / (kb * T)))).sum) := rfl
  rw [hLTE]
  refine ⟨by rw [hlen, List.length_ofFn], ?_, hnn2, hsum1, by
    rw [hsum1]
    norm_num⟩
  refine ⟨_⁻¹, inv_pos.mpr hS, ?_⟩
  intro i hi
  have hleni : i < (List.ofFn (fun i : Fin ld.nlev =>
      ld.weight i * Real.exp (-(ld.energy i) / (kb * T)))).length := by
    rw [List.length_ofFn]
    exact hi
  rw [hget i hleni]
  congr 1
  rw [ofFn_getD _ i hi 0]

/-- C4 witness: the two-level unit-weight system at T = 1: length 2 and
exact sum 1. -/
theorem LTEpop_spec_witness :
    (0 : ℝ) < 1 ∧
    (LTEpop ldA 1).length = ldA.nlev ∧
    (LTEpop ldA 1).sum = 1 := by
  have happ := LTEpop_spec ldA 1 one_pos (fun i => zero_le_one)
    ⟨0, by norm_num [ldA], one_pos⟩
  exact ⟨one_pos, happ.1, happ.2.2.2.1⟩

/-- C5: lineEmissivity and lineOpacity both return nrad entries; the source
function is their elementwise quotient, non-finite (modelled as none)
exactly at the transitions of zero opacity, and the finite quotient of the
two entries everywhere else. -/
theorem lineSource_spec (ld : LineData) (pop : ℕ → ℝ) :
    (lineEmissivity ld pop).length = ld.nrad ∧
    (lineOpacity ld pop).length = ld.nrad ∧
    (lineSource ld pop).length = ld.nrad ∧
    ∀ k : ℕ, k < ld.nrad →
      (((lineOpacity ld pop).getD k 0 ≠ 0 →
        (lineSource ld pop).getD k none =
          some ((lineEmissivity ld pop).getD k 0 /
            (lineOpacity ld pop).getD k 0)) ∧
      ((lineSource ld pop).getD k none = none ↔
        (lineOpacity ld pop).getD k 0 = 0)) := by
  have hle : (lineEmissivity ld pop).length = ld.nrad := by
    rw [lineEmissivity, List.length_ofFn]
  have hlo : (lineOpacity ld pop).length = ld.nrad := by
    rw [lineOpacity, List.length_ofFn]
  have hls : (lineSource ld pop).length = ld.nrad := by
    rw [lineSource, ndivide, List.length_zipWith, hle, hlo, min_self]
  refine ⟨hle, hlo, hls, ?_⟩
  intro k hk
  have hks : k < (lineSource ld pop).length := by
    rw [hls]
    exact hk
  have hke : k < (lineEmissivity ld pop).length := by
    rw [hle]
    exact hk
  have hko : k < (lineOpacity ld pop).length := by
    rw [hlo]
    exact hk
  have hkz : k < (List.zipWith (fun x y => if y = 0 then none else some (x / y))
      (lineEmissivity ld pop) (lineOpacity ld pop)).length := by
    rw [List.length_zipWith, hle, hlo, min_self]
    exact hk
  have hentry : (lineSource ld pop).getD k none =
      (if (lineOpacity ld pop).getD k 0 = 0 then none
        else some ((lineEmissivity ld pop).getD k 0 /
          (lineOpacity ld pop).getD k 0)) := by
    show (List.zipWith (fun x y => if y = 0 then none else some (x / y))
      (lineEmissivity ld pop) (lineOpacity ld pop)).getD k none = _
    rw [List.getD_eq_getElem _ _ hkz, List.getElem_zipWith,
      ← List.getD_eq_getElem _ _ hke, ← List.getD_eq_getElem _ _ hko]
  constructor
  · intro hne
    rw [hentry, if_neg hne]
  · rw [hentry]
    constructor
    · intro hnone
      by_contra hne
      rw [if_neg hne] at hnone
      exact Option.some_ne_none _ hnone
    · intro hzero
      rw [if_pos hzero]

/-- C5 witness: the concrete system ldB with unit populations: all three
arrays have length nrad = 1. -/
theorem lineSource_spec_witness :
    (lineEmissivity ldB (fun _ => 1)).length = ldB.nrad ∧
    (lineOpacity ldB (fun _ => 1)).length = ldB.nrad ∧
    (lineSource ldB (fun _ => 1)).length = ldB.nrad := by
  have happ := lineSource_spec ldB (fun _ => 1)
  exact ⟨happ.1, happ.2.1, happ.2.2.1⟩

/-- C6: each opacity entry k is h*frequency[k]/(4*pi) times the difference
of the absorption coefficient Ba[k] times the lower-level population
pop[jrad k] and the stimulated-emission coefficient Bs[k] times the
upper-level population pop[irad k]; the value can be negative without any
error: the function is total, and a concrete system yields a negative
entry. -/
theorem lineOpacity_spec (ld : LineData) (pop : ℕ → ℝ) (k : ℕ)
    (hk : k < ld.nrad) :
    (lineOpacity ld pop).getD k 0 =
      h * ld.frequency k / (4 * Real.pi) *
        (ld.Ba k * pop (ld.jrad k) - ld.Bs k * pop (ld.irad k)) ∧
    (lineOpacity ldB (fun _ => 1)).getD 0 0 < 0 := by
  constructor
  · rw [lineOpacity, ofFn_getD _ k hk 0]
  · rw [lineOpacity, ofFn_getD _ 0 (by norm_num [ldB]) 0]
    have hh : (0 : ℝ) < h := by norm_num [h]
    have hpi : (0 : ℝ) < 4 * Real.pi := by positivity
    have hq : (0 : ℝ) < h / (4 * Real.pi) := div_pos hh hpi
    simp only [ldB]
    have hval : h * 1 / (4 * Real.pi) * (0 * 1 - 1 * 1) =
        -(h / (4 * Real.pi)) := by
      ring
    rw [hval]
    exact neg_lt_zero.mpr hq

/-- C6 witness: the concrete maser-like system has one transition, and its
single opacity entry is negative while the call returns normally. -/
theorem lineOpacity_spec_witness :
    (0 : ℕ) < ldB.nrad ∧
    (lineOpacity ldB (fun _ => 1)).getD 0 0 < 0 := by
  have happ := lineOpacity_spec ldB (fun _ => 1) 0 (by norm_num [ldB])
  exact ⟨by norm_num [ldB], happ.2⟩

/-- C7: at every fixed positive frequency the Planck function is strictly
increasing in the temperature over positive temperatures, and the CMB
intensity is exactly the Planck function at temperature 2.72548. -/
theorem planck_spec (nu T1 T2 : ℝ) (hnu : 0 < nu) (hT1 : 0 < T1)
    (hT12 : T1 < T2) :
    planck T1 nu < planck T2 nu ∧
    ∀ nu2 : ℝ, I_CMB nu2 = planck 2.72548 nu2 := by
  constructor
  · have hh : (0 : ℝ) < h := by norm_num [h]
    have hcpos : (0 : ℝ) < c := by norm_num [c]
    have hkb : (0 : ℝ) < kb := by norm_num [kb]
    have hnum : 0 < 2 * h / c ^ 2 * nu ^ 3 := by positivity
    have hhnu : 0 < h * nu := mul_pos hh hnu
    have hT2 : 0 < T2 := lt_trans hT1 hT12
    have hx2 : 0 < h * nu / (kb * T2) := div_pos hhnu (mul_pos hkb hT2)
    have hx21 : h * nu / (kb * T2) < h * nu / (kb * T1) :=
      div_lt_div_of_pos_left hhnu (mul_pos hkb hT1) (by nlinarith)
    have he2 : 0 < Real.exp (h * nu / (kb * T2)) - 1 := by
      have h1 := Real.add_one_le_exp (h * nu / (kb * T2))
      nlinarith
    have he12 : Real.exp (h * nu / (kb * T2)) - 1 <
        Real.exp (h * nu / (kb * T1)) - 1 :=
      sub_lt_sub_right (Real.exp_lt_exp.mpr hx21) 1
    show 2 * h / c ^ 2 * nu ^ 3 / (Real.exp (h * nu / (kb * T1)) - 1) <
      2 * h / c ^ 2 * nu ^ 3 / (Real.exp (h * nu / (kb * T2)) - 1)
    exact div_lt_div_of_pos_left hnum he2 he12
  · intro nu2
    rfl

/-- C7 witness: monotonicity between temperatures 1 and 2 at frequency 1,
and the CMB identity at frequency 1. -/
theorem planck_spec_witness :
    (0 : ℝ) < 1 ∧ planck 1 1 < planck 2 1 ∧ I_CMB 1 = planck 2.72548 1 := by
  have happ := planck_spec 1 1 2 one_pos one_pos one_lt_two
  exact ⟨one_pos, happ.1, happ.2 1⟩

end Magritte
